import Mathlib

/-!
Shallow embedding of `src/boot/mbed/src/flash_map_backend.cpp` (mcuboot Mbed
flash-map backend) and proofs about the claims on its specification.

Machine integers are modelled as `Nat` with explicit `% 2 ^ w` at the points
where the C code narrows a value (the `uint8_t open_count[3]` cells, the
`uint8_t` return of `flash_area_align`, the `uint32_t` descriptor fields).
Buffers are `List Nat` of byte values.  The `uint8_t open_count[3]` array is
indexed by the C code with the raw `id` argument even when `id` is not one of
the three valid slots (an out-of-bounds access in C); the model keeps the
flat view `Nat → Nat`, so that the write the code performs at an invalid
index is visible.
-/

/--
Block-storage device collaborator.  Modelled from the spec: the device
implementations (FlashIAPBlockDevice, the secondary device) are external to
the repository; the spec's external-interface contract (section 6) lists
`init/deinit/read/program/erase/size/get_read_size/get_program_size/
get_erase_size/get_erase_value/is_valid_read`.  A successful `read` delivers
the bytes of `mem`; `read_fail off len = some e` means the device read at
`(off, len)` fails with code `e` and writes nothing.
-/
structure BlockDevice where
  read_size : Nat
  program_size : Nat
  erase_value : Nat
  dev_size : Nat
  erase_size : Nat → Nat
  mem : Nat → Nat
  read_fail : Nat → Nat → Option Int
  init_ret : Int

/--
Device read-validity check.  Modelled from the spec: "the device requires
reads in multiples of a minimum read granularity starting at aligned
offsets", bounded by the device size.
-/
def BlockDevice.is_valid_read (bd : BlockDevice) (off len : Nat) : Bool :=
  decide (off % bd.read_size = 0) && decide (len % bd.read_size = 0) &&
    decide (off + len ≤ bd.dev_size)

/--
Device `read(buffer, offset, length)`: on success the first `length` cells of
the destination buffer receive `mem (offset + i)`; on failure the buffer is
untouched and the device's error code is returned.
-/
def BlockDevice.bdRead (bd : BlockDevice) (off len : Nat) (dst : List Nat) :
    Int × List Nat :=
  match bd.read_fail off len with
  | some e => (e, dst)
  | none => (0, ((List.range len).map fun i => bd.mem (off + i)) ++ dst.drop len)

/-- Build-time addressing constants (spec section 6; macro inputs of the C file). -/
structure Config where
  bootloader_build : Bool
  post_application_addr : Nat
  post_application_size : Nat
  application_addr : Nat
  application_size : Nat
  header_size : Nat
  scratch_size : Nat

/-- Macro `PRIMARY_SLOT_START_ADDR` (lines 36 and 55 of the C file). -/
def PRIMARY_SLOT_START_ADDR (c : Config) : Nat :=
  if c.bootloader_build then c.post_application_addr
  else c.application_addr - c.header_size

/-- Macro `PRIMARY_SLOT_SIZE` (lines 38 and 57 of the C file). -/
def PRIMARY_SLOT_SIZE (c : Config) : Nat :=
  if c.bootloader_build then c.post_application_size - c.scratch_size
  else c.application_size + c.header_size

/-- Macro `SCRATCH_START_ADDR` (lines 73 and 76 of the C file). -/
def SCRATCH_START_ADDR (c : Config) : Nat :=
  if c.bootloader_build then PRIMARY_SLOT_START_ADDR c + PRIMARY_SLOT_SIZE c
  else c.application_addr + c.application_size

/-- The `struct flash_area` descriptor record (uint8 ids, uint32 offset and size). -/
structure FlashArea where
  fa_id : Nat
  fa_device_id : Nat
  fa_off : Nat
  fa_size : Nat

/-- Zero-initialized static descriptor, as in `static struct flash_area flash_areas[3]`. -/
def FlashArea.zeroed : FlashArea := ⟨0, 0, 0, 0⟩

/--
Mutable module state of the backend: the `open_count` cells (flat view of the
`uint8_t` array, see the file comment), the descriptor pool `flash_areas`,
and instrumentation of the device lifecycle: whether each slot's device is
currently initialized and how many `init()` / `deinit()` calls it received.
-/
structure OpenState where
  open_count : Nat → Nat
  areas : Nat → FlashArea
  inited : Nat → Bool
  inits : Nat → Nat
  deinits : Nat → Nat

/-- State at program start: all counters zero, no device initialized by the engine. -/
def initialState : OpenState :=
  ⟨fun _ => 0, fun _ => FlashArea.zeroed, fun _ => false, fun _ => 0, fun _ => 0⟩

/-- Pointwise update of a `Nat`-indexed table. -/
def upd {α : Type} (f : Nat → α) (i : Nat) (v : α) : Nat → α :=
  fun j => if j = i then v else f j

/--
`flash_area_open` (lines 116-150).  The counter cell at `id` is
post-incremented before anything is checked; when the old value was nonzero
the call returns 0 immediately.  Otherwise `fa_id` and `fa_device_id` are
written, the switch selects the offset (returning -1 on an unknown id, with
the counter already incremented and the two id fields already written), the
size is copied from the device and the device's `init()` is invoked; its
return code is the call's result.
-/
def flash_area_open (cfg : Config) (table : Nat → BlockDevice) (id : Nat)
    (s : OpenState) : Int × OpenState :=
  let c := s.open_count id
  let s1 : OpenState := { s with open_count := upd s.open_count id ((c + 1) % 256) }
  if c ≠ 0 then
    (0, s1)
  else
    let bd := table id
    let fa1 := { s1.areas id with fa_id := id % 256, fa_device_id := 0 }
    if id = 0 then
      let fa2 := { fa1 with fa_off := PRIMARY_SLOT_START_ADDR cfg % 2 ^ 32,
                            fa_size := bd.dev_size % 2 ^ 32 }
      (bd.init_ret,
        { s1 with areas := upd s1.areas id fa2,
                  inited := upd s1.inited id true,
                  inits := upd s1.inits id (s1.inits id + 1) })
    else if id = 1 then
      let fa2 := { fa1 with fa_off := 0, fa_size := bd.dev_size % 2 ^ 32 }
      (bd.init_ret,
        { s1 with areas := upd s1.areas id fa2,
                  inited := upd s1.inited id true,
                  inits := upd s1.inits id (s1.inits id + 1) })
    else if id = 2 then
      let fa2 := { fa1 with fa_off := SCRATCH_START_ADDR cfg % 2 ^ 32,
                            fa_size := bd.dev_size % 2 ^ 32 }
      (bd.init_ret,
        { s1 with areas := upd s1.areas id fa2,
                  inited := upd s1.inited id true,
                  inits := upd s1.inits id (s1.inits id + 1) })
    else
      (-1, { s1 with areas := upd s1.areas id fa1 })

/--
`flash_area_close` (lines 152-158): pre-decrement of the (uint8) counter cell
of the descriptor's `fa_id`; when it reaches zero the device is deinitialized.
-/
def flash_area_close (fa_id : Nat) (s : OpenState) : OpenState :=
  let c := (s.open_count fa_id + 255) % 256
  let s1 : OpenState := { s with open_count := upd s.open_count fa_id c }
  if c = 0 then
    { s1 with inited := upd s1.inited fa_id false,
              deinits := upd s1.deinits fa_id (s1.deinits fa_id + 1) }
  else s1

/--
`flash_area_read` (lines 160-176).  A request rejected by the device's
read-validity check is emulated: a zero-initialized scratch buffer of one
minimum-read unit is allocated, one device read of that size is issued at
`off`, and `memcpy(dst, buf, len)` copies into the caller's buffer; the C
code copies `len` bytes even when `len` exceeds the scratch buffer (an
out-of-bounds read whose bytes are indeterminate), so the model carries over
only the `min len read_size` defined bytes.  A valid request is delegated to
the device unchanged.
-/
def flash_area_read (bd : BlockDevice) (off len : Nat) (dst : List Nat) :
    Int × List Nat :=
  if bd.is_valid_read off len then
    bd.bdRead off len dst
  else
    let buf := List.replicate bd.read_size 0
    let r := bd.bdRead off bd.read_size buf
    (r.1, r.2.take (min len bd.read_size) ++ dst.drop (min len bd.read_size))

/-- `flash_area_align` (lines 189-192): `uint8_t` return of `get_program_size()`. -/
def flash_area_align (bd : BlockDevice) : Nat :=
  bd.program_size % 256

/-- `flash_area_erased_val` (lines 194-197): `uint8_t` return of `get_erase_value()`. -/
def flash_area_erased_val (bd : BlockDevice) : Nat :=
  bd.erase_value % 256

/--
`flash_area_read_is_empty` (lines 199-218): returns -1 when the read reports
any nonzero code, otherwise 1 when every one of the `len` buffer bytes equals
the erased value and 0 when some byte differs.
-/
def flash_area_read_is_empty (bd : BlockDevice) (off len : Nat)
    (dst : List Nat) : Int × List Nat :=
  let r := flash_area_read bd off len dst
  if r.1 ≠ 0 then (-1, r.2)
  else if (r.2.take len).all (fun b => b % 256 == flash_area_erased_val bd) then
    (1, r.2)
  else (0, r.2)

/-- The `struct flash_sector` record. -/
structure FlashSector where
  fs_off : Nat
  fs_size : Nat

/--
Loop body of `flash_area_get_sectors` (lines 225-236), with `rem` the number
of sector records the `MBED_CONF_MCUBOOT_MAX_IMG_SECTORS` cap still allows:
while the offset still admits a minimum-size read and the cap is not reached,
emit `(offset, erase_size offset)` and advance by that erase size.
-/
def get_sectors_loop (bd : BlockDevice) : Nat → Nat → List FlashSector
  | _, 0 => []
  | offset, rem + 1 =>
    if bd.is_valid_read offset bd.read_size then
      ⟨offset, bd.erase_size offset⟩ ::
        get_sectors_loop bd (offset + bd.erase_size offset) rem
    else []

/--
`flash_area_get_sectors` (lines 220-239): looks the device up by `fa_id`
without any validation of the id and always returns 0.
-/
def flash_area_get_sectors (table : Nat → BlockDevice) (max_img_sectors : Nat)
    (fa_id : Nat) : Int × List FlashSector :=
  (0, get_sectors_loop (table fa_id) 0 max_img_sectors)

/-- `flash_area_id_from_image_slot` (lines 241-243). -/
def flash_area_id_from_image_slot (slot : Int) : Int :=
  slot

/-- `flash_area_id_to_image_slot` (lines 245-247). -/
def flash_area_id_to_image_slot (area_id : Int) : Int :=
  area_id

/-- `n` successive `flash_area_open` calls on the same id, starting from `s`. -/
def opensN (cfg : Config) (table : Nat → BlockDevice) (id : Nat) :
    Nat → OpenState → OpenState
  | 0, s => s
  | n + 1, s => (flash_area_open cfg table id (opensN cfg table id n s)).2

/-- `n` successive `flash_area_close` calls on the same id, starting from `s`. -/
def closesN (id : Nat) : Nat → OpenState → OpenState
  | 0, s => s
  | n + 1, s => flash_area_close id (closesN id n s)

/-- A trivial device used where the device itself is irrelevant. -/
def bdZero : BlockDevice :=
  ⟨1, 1, 0, 0, fun _ => 1, fun _ => 0, fun _ _ => none, 0⟩

/-- Device table binding every index to the trivial device. -/
def table0 : Nat → BlockDevice :=
  fun _ => bdZero

/--
Bootloader-build configuration of the end-to-end scenario: primary slot of
size 0x10000 at 0x08008000, scratch of size 0x1000 immediately following
(`POST_APPLICATION_SIZE = 0x10000 + 0x1000`).
-/
def cfg0 : Config :=
  ⟨true, 0x08008000, 0x11000, 0, 0, 0x1000, 0x1000⟩

/-- Primary FlashIAP device of the scenario: size `PRIMARY_SLOT_SIZE cfg0`. -/
def bdPrimary : BlockDevice :=
  ⟨1, 1, 0xFF, 0x10000, fun _ => 0x1000, fun _ => 0xFF, fun _ _ => none, 0⟩

/-- Secondary device of the scenario (externally supplied, own address space). -/
def bdSecondary : BlockDevice :=
  ⟨1, 1, 0xFF, 0x20000, fun _ => 0x1000, fun _ => 0xFF, fun _ _ => none, 0⟩

/-- Scratch FlashIAP device of the scenario: size `MBED_CONF_MCUBOOT_SCRATCH_SIZE`. -/
def bdScratch : BlockDevice :=
  ⟨1, 1, 0xFF, 0x1000, fun _ => 0x1000, fun _ => 0xFF, fun _ _ => none, 0⟩

/-- Device table of the end-to-end scenario. -/
def table7 : Nat → BlockDevice :=
  fun i => if i = 0 then bdPrimary else if i = 1 then bdSecondary
    else if i = 2 then bdScratch else bdZero

/-- Device with read granularity 4 and identity memory, reads always succeed. -/
def bd2 : BlockDevice :=
  ⟨4, 4, 0xFF, 16, fun _ => 0x1000, fun i => i, fun _ _ => none, 0⟩

/-- Device with read granularity 4 whose every read fails with code -5. -/
def bd9 : BlockDevice :=
  ⟨4, 4, 0xFF, 16, fun _ => 0x1000, fun i => i, fun _ _ => some (-5), 0⟩

/-- Device with erase unit 0x1000 and total size 0x4000 (spec scenario geometry). -/
def bd4 : BlockDevice :=
  ⟨1, 1, 0xFF, 0x4000, fun _ => 0x1000, fun _ => 0xFF, fun _ _ => none, 0⟩

/-- Device table binding every index to `bd4`. -/
def table4 : Nat → BlockDevice :=
  fun _ => bd4

/-- Device whose program size 512 exceeds the `uint8_t` range. -/
def bd512 : BlockDevice :=
  ⟨4, 512, 0xFF, 16, fun _ => 1, fun _ => 0, fun _ _ => none, 0⟩

/-- C8: both single-image slot-index translation functions are the identity,
hence they are mutually inverse round-trips. -/
theorem C8_slot_translation_identity (slot area_id : Int) :
    flash_area_id_from_image_slot slot = slot ∧
    flash_area_id_to_image_slot area_id = area_id ∧
    flash_area_id_from_image_slot (flash_area_id_to_image_slot area_id) = area_id ∧
    flash_area_id_to_image_slot (flash_area_id_from_image_slot slot) = slot :=
  ⟨rfl, rfl, rfl, rfl⟩

/-- C7: with a primary region of size 0x10000 at 0x08008000 and a scratch
region of size 0x1000 immediately following, the first open of SCRATCH yields
a descriptor at offset 0x08018000 of size 0x1000, and the first open of
SECONDARY yields a descriptor at offset 0. -/
theorem C7_scratch_addressing :
    (flash_area_open cfg0 table7 2 initialState).1 = 0 ∧
    ((flash_area_open cfg0 table7 2 initialState).2.areas 2).fa_off = 0x08018000 ∧
    ((flash_area_open cfg0 table7 2 initialState).2.areas 2).fa_size = 0x1000 ∧
    (flash_area_open cfg0 table7 1 initialState).1 = 0 ∧
    ((flash_area_open cfg0 table7 1 initialState).2.areas 1).fa_off = 0 := by
  decide

/-- The buffer returned by `flash_area_read` has the caller's buffer length. -/
theorem flash_area_read_length (bd : BlockDevice) (off len : Nat)
    (dst : List Nat) (hlen : dst.length = len) :
    (flash_area_read bd off len dst).2.length = len := by
  unfold flash_area_read
  split
  · unfold BlockDevice.bdRead
    cases hrf : bd.read_fail off len with
    | some e => simpa using hlen
    | none => simp [hlen]
  · unfold BlockDevice.bdRead
    cases hrf : bd.read_fail off bd.read_size with
    | some e => simp [hlen]
    | none => simp [hlen]

/-- First projection of the success/failure pair produced by the emptiness scan. -/
theorem ite_fst_one_iff {c : Prop} [Decidable c] {x y : List Nat} :
    ((if c then ((1 : Int), x) else ((0 : Int), y)).1 = 1) ↔ c := by
  by_cases h : c
  · simp [h]
  · simp [h]

/-- C1 (the code evaluated at the failing input): from the initial state, the
first `flash_area_open` of the invalid id 3 returns -1 but has already
incremented the counter cell at index 3 (an out-of-bounds write in C); the
three valid slots' counters stay 0, and a second open of the same invalid id
returns 0, i.e. reports success. -/
theorem C1_invalid_open_mutates_counter :
    (flash_area_open cfg0 table0 3 initialState).1 = -1 ∧
    (flash_area_open cfg0 table0 3 initialState).2.open_count 3 = 1 ∧
    (flash_area_open cfg0 table0 3 initialState).2.open_count 0 = 0 ∧
    (flash_area_open cfg0 table0 3 initialState).2.open_count 1 = 0 ∧
    (flash_area_open cfg0 table0 3 initialState).2.open_count 2 = 0 ∧
    (flash_area_open cfg0 table0 3
      (flash_area_open cfg0 table0 3 initialState).2).1 = 0 := by
  decide

/-- C6 counterexample: sector enumeration on the unknown identifier 7 returns
0 (success), not the InvalidSlot error -1 the claim requires. -/
theorem C6_counterexample :
    (flash_area_get_sectors table0 8 7).1 = 0 ∧ ((0 : Int) ≠ -1) := by
  decide

/-- C6 amended: sector enumeration performs no identifier validation and
returns 0 for every identifier; the InvalidSlot error -1 is produced only by
`flash_area_open` (here on the first open of an unknown id). -/
theorem C6_amended_no_validation (cfg : Config) (table : Nat → BlockDevice)
    (max_img id : Nat) (s : OpenState) (hid : 3 ≤ id)
    (hc : s.open_count id = 0) :
    (flash_area_get_sectors table max_img id).1 = 0 ∧
    (flash_area_open cfg table id s).1 = -1 := by
  refine ⟨rfl, ?_⟩
  have h0 : ¬ id = 0 := by omega
  have h1 : ¬ id = 1 := by omega
  have h2 : ¬ id = 2 := by omega
  simp [flash_area_open, hc, h0, h1, h2]

/-- C6 witness: the amended claim evaluated at the unknown identifier 5. -/
theorem C6_witness :
    3 ≤ 5 ∧ initialState.open_count 5 = 0 ∧
    ((flash_area_get_sectors table0 4 5).1 = 0 ∧
      (flash_area_open cfg0 table0 5 initialState).1 = -1) :=
  ⟨by decide, rfl,
    C6_amended_no_validation cfg0 table0 4 5 initialState (by decide) rfl⟩

/-- C10: `flash_area_align` returns the device's program-size granularity
reduced modulo 2^8 (the `uint8_t` narrowing), so for a program size of 256 or
more the returned value is the low byte, not the granularity itself. -/
theorem C10_align_truncates (bd : BlockDevice) :
    flash_area_align bd = bd.program_size % 256 ∧
    flash_area_align bd < 256 ∧
    (256 ≤ bd.program_size → flash_area_align bd ≠ bd.program_size) := by
  refine ⟨rfl, ?_, ?_⟩
  · simp only [flash_area_align]; omega
  · intro h
    simp only [flash_area_align]
    omega

/-- C10 witness: a device of program size 512 is truncated by the alignment query. -/
theorem C10_witness :
    256 ≤ bd512.program_size ∧ flash_area_align bd512 ≠ bd512.program_size :=
  ⟨by decide, (C10_align_truncates bd512).2.2 (by decide)⟩

/-- C2 counterexample: on the device `bd2` with read granularity 4, the
unaligned request `(0, 5)` does not return 5 bytes equal to the 5-byte prefix
of the device read at offset 0: only the scratch buffer's 4 defined bytes are
copied, the fifth destination byte is not produced by the device read. -/
theorem C2_counterexample :
    ¬ ((flash_area_read bd2 0 5 [9, 9, 9, 9, 9]).2 =
      (List.range 5).map fun i => bd2.mem (0 + i)) := by
  decide

/-- C2 amended: a request satisfying the device's read-validity check is
delegated unchanged; a rejected request of length at most the minimum read
granularity, whose one-unit device read at `off` succeeds, returns exactly
`len` bytes equal to the corresponding prefix of that read. -/
theorem C2_read_emulation (bd : BlockDevice) (off len : Nat) (dst : List Nat)
    (hlen : dst.length = len) :
    (bd.is_valid_read off len = true →
      flash_area_read bd off len dst = bd.bdRead off len dst) ∧
    (bd.is_valid_read off len = false → len ≤ bd.read_size →
      bd.read_fail off bd.read_size = none →
      flash_area_read bd off len dst =
        (0, (List.range len).map fun i => bd.mem (off + i))) := by
  constructor
  · intro hv
    simp [flash_area_read, hv]
  · intro hv hle hok
    have hmin : min len bd.read_size = len := Nat.min_eq_left hle
    have hdrop : dst.drop len = [] := by
      rw [← hlen]; exact List.drop_length dst
    simp only [flash_area_read, hv, Bool.false_eq_true, if_false,
      BlockDevice.bdRead, hok, hmin, hdrop, List.append_nil]
    rw [List.drop_replicate, Nat.sub_self, List.replicate_zero, List.append_nil,
      ← List.map_take, List.take_range, hmin]

/-- C2 witness: the amended claim evaluated on `bd2` at the rejected request
`(0, 2)`: the caller receives the 2-byte prefix of the 4-byte device read. -/
theorem C2_witness :
    bd2.is_valid_read 0 2 = false ∧ 2 ≤ bd2.read_size ∧
    bd2.read_fail 0 bd2.read_size = none ∧
    flash_area_read bd2 0 2 [7, 7] = (0, [0, 1]) :=
  ⟨by decide, by decide, rfl,
    (C2_read_emulation bd2 0 2 [7, 7] rfl).2 (by decide) (by decide) rfl⟩

/-- C9 counterexample: on `bd9` (every device read fails) the rejected request
`(0, 5)` does not copy 5 bytes out of the zero-initialized scratch buffer:
the fifth destination byte lies beyond the one-unit scratch buffer and is not
taken from it (an out-of-bounds read in the C code). -/
theorem C9_counterexample :
    ¬ ((flash_area_read bd9 0 5 (List.replicate 5 7)).2 =
      List.replicate 5 0) := by
  decide

/-- C9 amended: for a rejected request of length at most the minimum read
granularity whose one-unit device read fails with code `e`, `flash_area_read`
still overwrites the caller's `len` bytes with the zero content of the fresh
scratch buffer and returns `e` (the device's own error code). -/
theorem C9_failed_read_zero_fill (bd : BlockDevice) (off len : Nat)
    (dst : List Nat) (e : Int) (hv : bd.is_valid_read off len = false)
    (hle : len ≤ bd.read_size) (hlen : dst.length = len)
    (hf : bd.read_fail off bd.read_size = some e) :
    flash_area_read bd off len dst = (e, List.replicate len 0) := by
  have hmin : min len bd.read_size = len := Nat.min_eq_left hle
  have hdrop : dst.drop len = [] := by
    rw [← hlen]; exact List.drop_length dst
  simp only [flash_area_read, hv, Bool.false_eq_true, if_false,
    BlockDevice.bdRead, hf, hmin, hdrop, List.append_nil,
    List.take_replicate]

/-- C9 witness: the amended claim evaluated on `bd9` at the rejected request
`(0, 2)`: the two caller bytes become 0 and the device code -5 is returned. -/
theorem C9_witness :
    bd9.is_valid_read 0 2 = false ∧ 2 ≤ bd9.read_size ∧
    bd9.read_fail 0 bd9.read_size = some (-5) ∧
    flash_area_read bd9 0 2 [7, 7] = (-5, [0, 0]) :=
  ⟨by decide, by decide, rfl,
    C9_failed_read_zero_fill bd9 0 2 [7, 7] (-5) (by decide) (by decide) rfl rfl⟩

/-- C5: the emptiness check returns -1 whenever the read reports a nonzero
code (whatever that code is); on a successful read it returns 1 exactly when
every byte of the caller's buffer equals the erased value; and for a valid
request served by the device it returns 1 exactly when the `len` device bytes
at `off` all equal the erased value. -/
theorem C5_is_empty_iff (bd : BlockDevice) (off len : Nat) (dst : List Nat)
    (hlen : dst.length = len) :
    ((flash_area_read bd off len dst).1 ≠ 0 →
      (flash_area_read_is_empty bd off len dst).1 = -1) ∧
    ((flash_area_read bd off len dst).1 = 0 →
      ((flash_area_read_is_empty bd off len dst).1 = 1 ↔
        ∀ b ∈ (flash_area_read bd off len dst).2,
          b % 256 = flash_area_erased_val bd)) ∧
    (bd.is_valid_read off len = true → bd.read_fail off len = none →
      ((flash_area_read_is_empty bd off len dst).1 = 1 ↔
        ∀ i < len, bd.mem (off + i) % 256 = flash_area_erased_val bd)) := by
  have hL := flash_area_read_length bd off len dst hlen
  have htake : (flash_area_read bd off len dst).2.take len
      = (flash_area_read bd off len dst).2 :=
    List.take_of_length_le hL.le
  refine ⟨?_, ?_, ?_⟩
  · intro h
    simp only [flash_area_read_is_empty, if_pos h]
  · intro h
    simp only [flash_area_read_is_empty, h, htake]
    rw [if_neg (by simp)]
    rw [ite_fst_one_iff]
    simp only [List.all_eq_true, beq_iff_eq]
  · intro hv hok
    have hread : flash_area_read bd off len dst
        = (0, (List.range len).map fun i => bd.mem (off + i)) := by
      have hdrop : dst.drop len = [] := by
        rw [← hlen]; exact List.drop_length dst
      simp only [flash_area_read, hv, if_true, BlockDevice.bdRead, hok,
        hdrop, List.append_nil]
    have h0 : (flash_area_read bd off len dst).1 = 0 := by rw [hread]
    simp only [flash_area_read_is_empty, h0, htake]
    rw [if_neg (by simp)]
    rw [ite_fst_one_iff]
    rw [hread]
    simp only [List.all_eq_true, List.mem_map, List.mem_range, beq_iff_eq]
    constructor
    · intro hall i hi
      exact hall _ ⟨i, hi, rfl⟩
    · rintro hall b ⟨i, hi, rfl⟩
      exact hall i hi

/-- C5 witness: on `bd9` (device reads fail with code -5) the emptiness check
of `(0, 4)` reports the generic -1 instead of the device's code. -/
theorem C5_witness :
    (List.replicate 4 7).length = 4 ∧
    (flash_area_read bd9 0 4 (List.replicate 4 7)).1 ≠ 0 ∧
    (flash_area_read_is_empty bd9 0 4 (List.replicate 4 7)).1 = -1 :=
  ⟨rfl, by decide,
    (C5_is_empty_iff bd9 0 4 (List.replicate 4 7) rfl).1 (by decide)⟩

/-- The sector loop emits at most as many records as the cap allows. -/
theorem get_sectors_loop_length (bd : BlockDevice) :
    ∀ (rem offset : Nat), (get_sectors_loop bd offset rem).length ≤ rem := by
  intro rem
  induction rem with
  | zero => intro offset; simp [get_sectors_loop]
  | succ n ih =>
    intro offset
    unfold get_sectors_loop
    split
    · simp only [List.length_cons]
      exact Nat.succ_le_succ (ih _)
    · simp

/-- The first record the sector loop emits starts at the loop's start offset. -/
theorem get_sectors_loop_head (bd : BlockDevice) :
    ∀ (rem offset : Nat) (a : FlashSector),
      (get_sectors_loop bd offset rem)[0]? = some a → a.fs_off = offset := by
  intro rem
  cases rem with
  | zero => intro offset a h; simp [get_sectors_loop] at h
  | succ n =>
    intro offset a h
    by_cases hv : bd.is_valid_read offset bd.read_size = true
    · simp only [get_sectors_loop, hv, if_true, List.getElem?_cons_zero,
        Option.some_inj] at h
      rw [← h]
    · simp [get_sectors_loop, hv] at h

/-- Adjacent records of the sector loop are contiguous. -/
theorem get_sectors_loop_chain (bd : BlockDevice) :
    ∀ (rem offset i : Nat) (a b : FlashSector),
      (get_sectors_loop bd offset rem)[i]? = some a →
      (get_sectors_loop bd offset rem)[i + 1]? = some b →
      b.fs_off = a.fs_off + a.fs_size := by
  intro rem
  induction rem with
  | zero => intro offset i a b ha hb; simp [get_sectors_loop] at ha
  | succ n ih =>
    intro offset i a b ha hb
    by_cases hv : bd.is_valid_read offset bd.read_size = true
    · rw [show get_sectors_loop bd offset (n + 1) =
          ⟨offset, bd.erase_size offset⟩ ::
            get_sectors_loop bd (offset + bd.erase_size offset) n from by
        simp [get_sectors_loop, hv]] at ha hb
      cases i with
      | zero =>
        simp only [List.getElem?_cons_zero, Option.some_inj] at ha
        simp only [List.getElem?_cons_succ] at hb
        have hh := get_sectors_loop_head bd n (offset + bd.erase_size offset) b hb
        rw [hh, ← ha]
      | succ j =>
        simp only [List.getElem?_cons_succ] at ha hb
        exact ih (offset + bd.erase_size offset) j a b ha hb
    · simp [get_sectors_loop, hv] at ha

/-- Every record the sector loop emits has a positive size when the device's
erase units are nonempty. -/
theorem get_sectors_loop_size_pos (bd : BlockDevice)
    (hpos : ∀ off, 0 < bd.erase_size off) :
    ∀ (rem offset i : Nat) (a : FlashSector),
      (get_sectors_loop bd offset rem)[i]? = some a → 0 < a.fs_size := by
  intro rem
  induction rem with
  | zero => intro offset i a h; simp [get_sectors_loop] at h
  | succ n ih =>
    intro offset i a h
    by_cases hv : bd.is_valid_read offset bd.read_size = true
    · rw [show get_sectors_loop bd offset (n + 1) =
          ⟨offset, bd.erase_size offset⟩ ::
            get_sectors_loop bd (offset + bd.erase_size offset) n from by
        simp [get_sectors_loop, hv]] at h
      cases i with
      | zero =>
        simp only [List.getElem?_cons_zero, Option.some_inj] at h
        rw [← h]
        exact hpos offset
      | succ j =>
        simp only [List.getElem?_cons_succ] at h
        exact ih (offset + bd.erase_size offset) j a h
    · simp [get_sectors_loop, hv] at h

/-- C4: for every identifier, sector enumeration returns success (silently
truncating at the cap rather than failing), emits at most the configured
maximum number of records, starts at offset 0, and (for a device whose erase
units are nonempty) produces contiguous, strictly increasing offsets. -/
theorem C4_sector_enumeration (table : Nat → BlockDevice)
    (max_img fa_id : Nat)
    (hpos : ∀ off, 0 < (table fa_id).erase_size off) :
    (flash_area_get_sectors table max_img fa_id).1 = 0 ∧
    (flash_area_get_sectors table max_img fa_id).2.length ≤ max_img ∧
    (∀ a : FlashSector,
      (flash_area_get_sectors table max_img fa_id).2[0]? = some a →
      a.fs_off = 0) ∧
    (∀ (i : Nat) (a b : FlashSector),
      (flash_area_get_sectors table max_img fa_id).2[i]? = some a →
      (flash_area_get_sectors table max_img fa_id).2[i + 1]? = some b →
      b.fs_off = a.fs_off + a.fs_size) ∧
    (∀ (i : Nat) (a b : FlashSector),
      (flash_area_get_sectors table max_img fa_id).2[i]? = some a →
      (flash_area_get_sectors table max_img fa_id).2[i + 1]? = some b →
      a.fs_off < b.fs_off) := by
  refine ⟨rfl, ?_, ?_, ?_, ?_⟩
  · exact get_sectors_loop_length (table fa_id) max_img 0
  · intro a ha
    exact get_sectors_loop_head (table fa_id) max_img 0 a ha
  · intro i a b ha hb
    exact get_sectors_loop_chain (table fa_id) max_img 0 i a b ha hb
  · intro i a b ha hb
    have hch := get_sectors_loop_chain (table fa_id) max_img 0 i a b ha hb
    have hsz := get_sectors_loop_size_pos (table fa_id) hpos max_img 0 i a ha
    omega

/-- C4 witness: on a device with erase unit 0x1000 and size 0x4000 the
enumeration succeeds and stays within the cap of 128 records. -/
theorem C4_witness :
    (flash_area_get_sectors table4 128 0).1 = 0 ∧
    (flash_area_get_sectors table4 128 0).2.length ≤ 128 :=
  ⟨(C4_sector_enumeration table4 128 0 (fun _ => by show 0 < 0x1000; decide)).1,
    (C4_sector_enumeration table4 128 0 (fun _ => by show 0 < 0x1000; decide)).2.1⟩

/-- A re-entrant open (counter already positive) only bumps the counter. -/
theorem open_step_cheap (cfg : Config) (table : Nat → BlockDevice) (id : Nat)
    (s : OpenState) (h : s.open_count id ≠ 0) :
    (flash_area_open cfg table id s).1 = 0 ∧
    (flash_area_open cfg table id s).2.open_count id =
      (s.open_count id + 1) % 256 ∧
    (flash_area_open cfg table id s).2.inits id = s.inits id ∧
    (flash_area_open cfg table id s).2.inited id = s.inited id ∧
    (flash_area_open cfg table id s).2.deinits id = s.deinits id := by
  simp [flash_area_open, upd, h]

/-- A first open of a valid slot initializes the device and sets the counter to 1. -/
theorem open_step_first (cfg : Config) (table : Nat → BlockDevice) (id : Nat)
    (s : OpenState) (hid : id < 3) (h : s.open_count id = 0) :
    (flash_area_open cfg table id s).1 = (table id).init_ret ∧
    (flash_area_open cfg table id s).2.open_count id = 1 ∧
    (flash_area_open cfg table id s).2.inits id = s.inits id + 1 ∧
    (flash_area_open cfg table id s).2.inited id = true ∧
    (flash_area_open cfg table id s).2.deinits id = s.deinits id := by
  have h3 : id = 0 ∨ id = 1 ∨ id = 2 := by omega
  rcases h3 with rfl | rfl | rfl <;> simp [flash_area_open, upd, h]

/-- Effect of a close on the counter and the device lifecycle counters. -/
theorem close_step (id : Nat) (s : OpenState) :
    (flash_area_close id s).open_count id = (s.open_count id + 255) % 256 ∧
    (flash_area_close id s).inits id = s.inits id ∧
    ((s.open_count id + 255) % 256 = 0 →
      (flash_area_close id s).inited id = false ∧
      (flash_area_close id s).deinits id = s.deinits id + 1) ∧
    ((s.open_count id + 255) % 256 ≠ 0 →
      (flash_area_close id s).inited id = s.inited id ∧
      (flash_area_close id s).deinits id = s.deinits id) := by
  by_cases h : (s.open_count id + 255) % 256 = 0 <;>
    simp [flash_area_close, upd, h]

/-- State after `k ≤ 255` nested opens of a valid slot from the initial
state: counter `k`, one `init()` call (performed by the first open), device
initialized exactly when `k` is positive, no `deinit()` call. -/
theorem opensN_spec (cfg : Config) (table : Nat → BlockDevice) (id : Nat)
    (hid : id < 3) :
    ∀ k, k ≤ 255 →
      (opensN cfg table id k initialState).open_count id = k ∧
      (opensN cfg table id k initialState).inits id =
        (if k = 0 then 0 else 1) ∧
      (opensN cfg table id k initialState).inited id = decide (0 < k) ∧
      (opensN cfg table id k initialState).deinits id = 0 := by
  intro k
  induction k with
  | zero => intro _; exact ⟨rfl, rfl, rfl, rfl⟩
  | succ n ih =>
    intro hn
    obtain ⟨hc, hi, hb, hd⟩ := ih (by omega)
    have e : opensN cfg table id (n + 1) initialState
        = (flash_area_open cfg table id (opensN cfg table id n initialState)).2 :=
      rfl
    rw [e]
    by_cases h0 : n = 0
    · subst h0
      obtain ⟨_, o2, o3, o4, o5⟩ := open_step_first cfg table id _ hid hc
      exact ⟨o2, by rw [o3, hi]; simp, by rw [o4]; simp, by rw [o5, hd]⟩
    · have hne : (opensN cfg table id n initialState).open_count id ≠ 0 := by
        rw [hc]; exact h0
      obtain ⟨_, o2, o3, o4, o5⟩ := open_step_cheap cfg table id _ hne
      have hn0 : 0 < n := Nat.pos_of_ne_zero h0
      refine ⟨?_, ?_, ?_, by rw [o5, hd]⟩
      · rw [o2, hc]; omega
      · rw [o3, hi]; simp [h0]
      · rw [o4, hb, decide_eq_true hn0, decide_eq_true (Nat.succ_pos n)]

/-- State after `j ≤ N` closes of a slot whose counter holds `N ≤ 255`:
counter `N - j`, device initialized until the `N`-th close, which performs
the single `deinit()` call. -/
theorem closesN_spec (id N : Nat) (hN1 : 1 ≤ N) (hN : N ≤ 255)
    (s : OpenState) (hc : s.open_count id = N) (hb : s.inited id = true)
    (hi : s.inits id = 1) (hd : s.deinits id = 0) :
    ∀ j, j ≤ N →
      (closesN id j s).open_count id = N - j ∧
      (closesN id j s).inits id = 1 ∧
      (closesN id j s).inited id = decide (j < N) ∧
      (closesN id j s).deinits id = (if j = N then 1 else 0) := by
  intro j
  induction j with
  | zero =>
    intro _
    refine ⟨by simpa using hc, hi, ?_, ?_⟩
    · show s.inited id = decide (0 < N)
      rw [hb, decide_eq_true (show 0 < N by omega)]
    · show s.deinits id = if (0 : Nat) = N then 1 else 0
      rw [if_neg (by omega : ¬ (0 : Nat) = N)]
      exact hd
  | succ n ih =>
    intro hjn
    obtain ⟨k1, k2, k3, k4⟩ := ih (by omega)
    have e : closesN id (n + 1) s = flash_area_close id (closesN id n s) := rfl
    rw [e]
    obtain ⟨c1, c2, c3, c4⟩ := close_step id (closesN id n s)
    have harith : ((closesN id n s).open_count id + 255) % 256 = N - (n + 1) := by
      rw [k1]; omega
    by_cases hlast : n + 1 = N
    · have hz : ((closesN id n s).open_count id + 255) % 256 = 0 := by
        rw [harith]; omega
      obtain ⟨d1, d2⟩ := c3 hz
      refine ⟨by rw [c1, harith], c2.trans k2, ?_, ?_⟩
      · rw [d1, (decide_eq_false (by omega : ¬ n + 1 < N))]
      · rw [d2, k4, if_neg (by omega : ¬ n = N), if_pos hlast]
    · have hnz : ((closesN id n s).open_count id + 255) % 256 ≠ 0 := by
        rw [harith]; omega
      obtain ⟨d1, d2⟩ := c4 hnz
      refine ⟨by rw [c1, harith], c2.trans k2, ?_, ?_⟩
      · rw [d1, k3, decide_eq_true (by omega : n < N),
          decide_eq_true (by omega : n + 1 < N)]
      · rw [d2, k4, if_neg (by omega : ¬ n = N), if_neg hlast]

/-- C3 amended: for every valid slot and every `N` with `1 ≤ N ≤ 255` (the
reach of the 8-bit counter), `N` nested opens followed by `N` closes from the
initial state initialize the device exactly once (on the first open),
deinitialize it exactly once (on the `N`-th close), leave the counter at
zero, and preserve the invariant "device initialized iff counter positive"
at every intermediate state. -/
theorem C3_nested_open_close (cfg : Config) (table : Nat → BlockDevice)
    (id N : Nat) (hid : id < 3) (h1 : 1 ≤ N) (h2 : N ≤ 255) :
    (opensN cfg table id N initialState).inits id = 1 ∧
    (opensN cfg table id N initialState).open_count id = N ∧
    (∀ k, 1 ≤ k → k ≤ N →
      (opensN cfg table id k initialState).inits id = 1) ∧
    (closesN id N (opensN cfg table id N initialState)).open_count id = 0 ∧
    (closesN id N (opensN cfg table id N initialState)).deinits id = 1 ∧
    (closesN id N (opensN cfg table id N initialState)).inited id = false ∧
    (∀ j, j < N →
      (closesN id j (opensN cfg table id N initialState)).deinits id = 0) ∧
    (∀ k, k ≤ N →
      ((opensN cfg table id k initialState).inited id = true ↔
        0 < (opensN cfg table id k initialState).open_count id)) ∧
    (∀ j, j ≤ N →
      ((closesN id j (opensN cfg table id N initialState)).inited id = true ↔
        0 < (closesN id j (opensN cfg table id N initialState)).open_count id)) := by
  obtain ⟨ho1, ho2, ho3, ho4⟩ := opensN_spec cfg table id hid N h2
  have hbN : (opensN cfg table id N initialState).inited id = true :=
    ho3.trans (decide_eq_true h1)
  have hiN : (opensN cfg table id N initialState).inits id = 1 :=
    ho2.trans (if_neg (by omega))
  have hcl := closesN_spec id N h1 h2 _ ho1 hbN hiN ho4
  obtain ⟨w1, w2, w3, w4⟩ := hcl N (le_refl N)
  refine ⟨hiN, ho1, ?_, by rw [w1]; omega, ?_, ?_, ?_, ?_, ?_⟩
  · intro k hk1 hk2
    obtain ⟨_, g2, _, _⟩ := opensN_spec cfg table id hid k (by omega)
    exact g2.trans (if_neg (by omega))
  · rw [w4, if_pos rfl]
  · rw [w3, decide_eq_false (by omega : ¬ N < N)]
  · intro j hj
    obtain ⟨_, _, _, g4⟩ := hcl j (by omega)
    rw [g4, if_neg (by omega)]
  · intro k hk
    obtain ⟨g1, _, g3, _⟩ := opensN_spec cfg table id hid k (by omega)
    rw [g1, g3]
    simp
  · intro j hj
    obtain ⟨g1, _, g3, _⟩ := hcl j hj
    rw [g1, g3]
    simp

/-- C3 witness: the amended claim evaluated at slot 0 with `N = 2`. -/
theorem C3_witness :
    (0 : Nat) < 3 ∧ (1 : Nat) ≤ 2 ∧ (2 : Nat) ≤ 255 ∧
    (opensN cfg0 table0 0 2 initialState).inits 0 = 1 :=
  ⟨by decide, by decide, by decide,
    (C3_nested_open_close cfg0 table0 0 2 (by decide) (by decide) (by decide)).1⟩

/-- Closes never invoke `init()`: the init-call count is unchanged. -/
theorem closesN_inits (id : Nat) : ∀ (j : Nat) (s : OpenState),
    (closesN id j s).inits id = s.inits id := by
  intro j
  induction j with
  | zero => intro s; rfl
  | succ n ih =>
    intro s
    have e : closesN id (n + 1) s = flash_area_close id (closesN id n s) := rfl
    rw [e, (close_step id (closesN id n s)).2.1, ih]

/-- C3 counterexample: with `N = 257` the 8-bit counter wraps (open number
256 brings it back to 0), so open number 257 initializes the device of slot 0
a second time: across 257 nested opens and 257 matching closes the device
receives two `init()` calls, refuting "initializes exactly once" for every
`N ≥ 1`. -/
theorem C3_counterexample :
    (closesN 0 257 (opensN cfg0 table0 0 257 initialState)).inits 0 = 2 ∧
    ¬ ((closesN 0 257 (opensN cfg0 table0 0 257 initialState)).inits 0 = 1) := by
  obtain ⟨hc, hi0, _, _⟩ := opensN_spec cfg0 table0 0 (by omega) 255 (le_refl 255)
  have hi : (opensN cfg0 table0 0 255 initialState).inits 0 = 1 :=
    hi0.trans (if_neg (by omega))
  have e256 : opensN cfg0 table0 0 256 initialState
      = (flash_area_open cfg0 table0 0 (opensN cfg0 table0 0 255 initialState)).2 :=
    rfl
  have hne : (opensN cfg0 table0 0 255 initialState).open_count 0 ≠ 0 := by
    rw [hc]; omega
  obtain ⟨_, p2, p3, _, _⟩ :=
    open_step_cheap cfg0 table0 0 (opensN cfg0 table0 0 255 initialState) hne
  have hc256 : (opensN cfg0 table0 0 256 initialState).open_count 0 = 0 := by
    rw [e256, p2, hc]
  have hi256 : (opensN cfg0 table0 0 256 initialState).inits 0 = 1 := by
    rw [e256, p3, hi]
  have e257 : opensN cfg0 table0 0 257 initialState
      = (flash_area_open cfg0 table0 0 (opensN cfg0 table0 0 256 initialState)).2 :=
    rfl
  obtain ⟨_, _, q3, _, _⟩ :=
    open_step_first cfg0 table0 0 (opensN cfg0 table0 0 256 initialState)
      (by omega) hc256
  have hi257 : (opensN cfg0 table0 0 257 initialState).inits 0 = 2 := by
    rw [e257, q3, hi256]
  have hfinal : (closesN 0 257 (opensN cfg0 table0 0 257 initialState)).inits 0 = 2 := by
    rw [closesN_inits 0 257 (opensN cfg0 table0 0 257 initialState), hi257]
  exact ⟨hfinal, by rw [hfinal]; omega⟩
